import Mathlib

/-!
Verification development for the manusmcp agent orchestrator.

The development shallowly embeds the parts of the repository that the
checked properties are about:

* the Run State record and its per-field merge policy, from
  `src/state.py` (the reducers declared in the channel annotations);
* the Supervisor Dispatcher node, from `src/supervisor.py`;
* the Plan/Replan controller routing, from `src/__init__.py`
  (`should_end` and the graph edges);
* the shell session/process lifecycle manager, from
  `src/manusmcp/tools.py` (`shell_exec`, `shell_view`, `shell_wait`,
  `shell_write_to_process`, `shell_kill_process`);
* the filesystem worker routing, from `src/workers/fs.py`, plus the
  `file_write` and `file_str_replace` tools from `src/manusmcp/tools.py`.

External effects (the language model, the OS process, the file system)
are passed in explicitly: the reasoner's structured output is an input
of the supervisor, process launches carry their outcome as a parameter,
and process behaviour (exit code, produced output, responsiveness to
SIGTERM, natural runtime) is recorded in a `Proc` value.
-/

namespace Manus

/-! ## Run State (`src/state.py`) -/

/-- One plan step: a description plus 1-4 substeps (`Step` in
`src/state.py` and `src/model_types.py`). -/
structure Step where
  description : String
  substeps : List String
deriving Repr, DecidableEq

/-- The shared Run State threaded through the orchestration
(`State` in `src/state.py`).  `pastSteps` entries are the
`{"step": ..., "result": ...}` dictionaries, kept as pairs; messages are
kept as their string contents. -/
structure State where
  input : String
  plan : List Step
  pastSteps : List (String × String)
  response : String
  sources : List String
  messages : List String
  next : String
  instruction : String
deriving Repr, DecidableEq

/-- A partial state update as returned by a graph node: `none` means the
node did not write the field. -/
structure StateUpdate where
  input : Option String := none
  plan : Option (List Step) := none
  pastSteps : Option (List (String × String)) := none
  response : Option String := none
  sources : Option (List String) := none
  messages : Option (List String) := none
  next : Option String := none
  instruction : Option String := none
deriving Repr

/-- Merge a partial update into the state using the per-field reducers
declared in `src/state.py`: `plan`, `pastSteps` and `messages` use the
concatenation reducer `lambda x, y: x + y`; the remaining fields use the
replace-if-present reducer `lambda x, y: y if y is not None else x`. -/
def applyUpdate (s : State) (u : StateUpdate) : State :=
  { input := u.input.getD s.input
    plan := s.plan ++ u.plan.getD []
    pastSteps := s.pastSteps ++ u.pastSteps.getD []
    response := u.response.getD s.response
    sources := u.sources.getD s.sources
    messages := s.messages ++ u.messages.getD []
    next := u.next.getD s.next
    instruction := u.instruction.getD s.instruction }

/-! ## Supervisor Dispatcher (`src/supervisor.py`) -/

/-- The structured output of the supervisor's reasoner call
(`Router` in `src/model_types.py`): the chosen worker (or `"FINISH"`)
and the instruction for it. -/
structure Router where
  next : String
  instruction : String
deriving Repr, DecidableEq

/-- Where a supervisor `Command` transfers control: the end of the
dispatch sub-graph, or a named worker node. -/
inductive SupGoto
  | endOfGraph
  | worker (name : String)
deriving Repr, DecidableEq

/-- A `Command(goto=..., update=...)` value returned by the supervisor
node. -/
structure SupCommand where
  goto : SupGoto
  update : StateUpdate
deriving Repr

/-- The `supervisor` node of `src/supervisor.py`.  The reasoner output is
passed in as `output`.  The function is `none` exactly where the Python
code would raise an `IndexError`: on an empty plan (`state["plan"][0]`)
or, in the FINISH branch, on an empty transcript
(`state["messages"][-1]`).  On FINISH the update carries
`plan = state["plan"][1:]` and one `(description, result)` pair for
`pastSteps`; otherwise it carries `next` and `instruction` and control
moves to the chosen worker. -/
def supervisor (s : State) (output : Router) : Option SupCommand :=
  match s.plan with
  | [] => none
  | task :: rest =>
    if output.next = "FINISH" then
      match s.messages.getLast? with
      | none => none
      | some m =>
        some { goto := SupGoto.endOfGraph
               update := { plan := some rest
                           pastSteps := some [(task.description, m)] } }
    else
      some { goto := SupGoto.worker output.next
             update := { next := some output.next
                         instruction := some output.instruction } }

/-- One "worker call then FINISH" round for the current plan item: the
worker appends one message `msg` to the transcript (the `messages`
channel reducer concatenates), then the supervisor runs with a FINISH
router output and its update is merged through `applyUpdate`. -/
def finishStep (s : State) (msg : String) : Option State :=
  let s1 := applyUpdate s { messages := some [msg] }
  (supervisor s1 { next := "FINISH", instruction := "" }).map
    (fun c => applyUpdate s1 c.update)

/-- Iterate `finishStep` once per worker message. -/
def finishRun (s : State) (msgs : List String) : Option State :=
  match msgs with
  | [] => some s
  | m :: ms => (finishStep s m).bind (fun s' => finishRun s' ms)

/-! ## Plan/Replan controller routing (`src/__init__.py`) -/

/-- The part of the run state that the controller's conditional edge can
observe: the remaining plan and the `response` field, `none` when the
`"response"` key is absent from the state dictionary. -/
structure CtrlState where
  plan : List Step
  response : Option String
deriving Repr, DecidableEq

/-- Nodes of the top-level controller graph in `src/__init__.py`
(`planner`, `supervisor`, `replanner`) plus the terminal `END`. -/
inductive CNode
  | planner
  | supervisorNode
  | replanner
  | doneNode
deriving Repr, DecidableEq

/-- The `should_end` conditional of `src/__init__.py`: `END` when the
`response` key is present and its value truthy (a non-empty string),
`"supervisor"` otherwise. -/
def should_end (s : CtrlState) : CNode :=
  match s.response with
  | none => CNode.supervisorNode
  | some r => if r = "" then CNode.supervisorNode else CNode.doneNode

/-- The edge function of the controller graph: `planner -> supervisor`,
`supervisor -> replanner`, and from `replanner` the conditional edge
`should_end`; `END` is absorbing. -/
def controllerStep (n : CNode) (s : CtrlState) : CNode :=
  match n with
  | CNode.planner => CNode.supervisorNode
  | CNode.supervisorNode => CNode.replanner
  | CNode.replanner => should_end s
  | CNode.doneNode => CNode.doneNode

/-! ## Process session manager (`src/manusmcp/tools.py`)

A `Proc` value records the behaviour of one launched OS process as the
embedding needs it: whether it is still running, the return code it
reports once exited, the output currently readable without blocking
(`availOutput`), the output only a blocking read-to-end-of-stream
delivers (`futureOutput`), what has been fed to its stdin, whether it
exits within the 5 second grace period after SIGTERM
(`termResponsive`), and the seconds left until it exits on its own
(`runtime`). -/

/-- Behaviour record of one launched OS process. -/
structure Proc where
  alive : Bool
  exitCode : Int
  availOutput : String
  futureOutput : String
  stdin : String
  termResponsive : Bool
  runtime : Nat
deriving Repr, DecidableEq

/-- One signal or wait applied to a process handle, used to compare the
shutdown policies of `shell_exec`'s replace path and of
`shell_kill_process`. -/
inductive ProcAction
  | terminate
  | waitTimeout (secs : Nat)
  | kill
  | waitReap
deriving Repr, DecidableEq

/-- Return code of a process brought down by the two-phase policy:
`-SIGTERM` when it honours the terminate signal within the grace
period, `-SIGKILL` when it had to be force-killed. -/
def termExitCode (p : Proc) : Int :=
  if p.termResponsive then -15 else -9

/-- The shutdown executed on the existing live process by `shell_exec`
(`src/manusmcp/tools.py` lines 183-188): `terminate()`, `wait(timeout=5)`,
and `kill()` if the wait times out, with no further wait.  Returns the
resulting process state and the sequence of signals/waits applied. -/
def replaceKill (p : Proc) : Proc × List ProcAction :=
  ({ p with alive := false, exitCode := termExitCode p, runtime := 0 },
   if p.termResponsive then
     [ProcAction.terminate, ProcAction.waitTimeout 5]
   else
     [ProcAction.terminate, ProcAction.waitTimeout 5, ProcAction.kill])

/-- The shutdown executed on a live process by `shell_kill_process`
(`src/manusmcp/tools.py` lines 342-349): `terminate()`, `wait(timeout=5)`,
and on timeout `kill()` followed by an unbounded `wait()`. -/
def gracefulKill (p : Proc) : Proc × List ProcAction :=
  ({ p with alive := false, exitCode := termExitCode p, runtime := 0 },
   if p.termResponsive then
     [ProcAction.terminate, ProcAction.waitTimeout 5]
   else
     [ProcAction.terminate, ProcAction.waitTimeout 5, ProcAction.kill,
      ProcAction.waitReap])

/-- A shell session (`ShellSession` in `src/manusmcp/tools.py`):
the accumulated output buffer and the current process handle.
`retired` is ghost bookkeeping recording the handles that `shell_exec`
dropped when it overwrote `session.process`; it lets the development
state the "at most one live process per id" trace invariant. -/
structure ShellSession where
  output : String
  process : Option Proc
  retired : List Proc
deriving Repr, DecidableEq

/-- The session table, `sessions: Dict[str, ShellSession]`, as an
association list. -/
def SMState := List (String × ShellSession)

/-- Look a session up by id. -/
def lookupSession (st : SMState) (id : String) : Option ShellSession :=
  match st with
  | [] => none
  | (k, v) :: rest => if k = id then some v else lookupSession rest id

/-- Store a session under an id, replacing an existing entry. -/
def setSession (st : SMState) (id : String) (s : ShellSession) : SMState :=
  match st with
  | [] => [(id, s)]
  | (k, v) :: rest =>
    if k = id then (id, s) :: rest else (k, v) :: setSession rest id s

/-- Result message of `shell_exec` after a successful launch. -/
def startedMsg (id preview : String) : String :=
  s!"Command started in session {id}. Initial output: {preview}..."

/-- Result message of `shell_exec` when `subprocess.Popen` raises. -/
def errExecMsg (e : String) : String :=
  s!"Error executing command: {e}"

/-- Unknown-session result message. -/
def notFoundMsg (id : String) : String :=
  s!"Session {id} not found"

/-- Result message when the session has no process at all. -/
def noProcMsg (id : String) : String :=
  s!"No process running in session {id}"

/-- Result message when the session's process has already exited. -/
def alreadyCompletedMsg (id : String) (code : Int) : String :=
  s!"Process in session {id} already completed with return code {code}"

/-- Result message of a timed `shell_wait` that timed out. -/
def stillRunningMsg (id : String) (secs : Nat) : String :=
  s!"Process in session {id} still running after {secs} seconds"

/-- Result message of `shell_wait` after the process exited. -/
def completedMsg (id : String) (code : Int) : String :=
  s!"Process in session {id} completed with return code {code}"

/-- Result message of a successful `shell_write_to_process`. -/
def inputWrittenMsg (id : String) : String :=
  s!"Input written to process in session {id}"

/-- Result message of `shell_kill_process` after terminating a live
process. -/
def terminatedMsg (id : String) : String :=
  s!"Process in session {id} terminated"

/-- The outcome of `subprocess.Popen` for one `shell_exec` call: either
a fresh process with its behaviour record, or the exception message. -/
inductive LaunchResult
  | ok (p : Proc)
  | err (msg : String)
deriving Repr, DecidableEq

/-- The initial read loop of `shell_exec`: while the process is alive it
drains the currently available lines; if the process completed
immediately it additionally reads the remaining output to end of
stream. -/
def initialDrain (p : Proc) : String × Proc :=
  if p.alive then
    (p.availOutput, { p with availOutput := "" })
  else
    (p.availOutput ++ p.futureOutput,
     { p with availOutput := "", futureOutput := "" })

/-- The `shell_exec` tool (`src/manusmcp/tools.py` lines 170-225).
Creates the session on first reference, applies `replaceKill` to an
existing live process, clears the output buffer, and then either
installs the newly launched process (recording the initial drain and
returning a bounded preview) or, when the launch raised, returns the
captured error message; in the error case `session.process` keeps its
previous value, exactly as in the source. -/
def shell_exec (st : SMState) (id _exec_dir _command : String)
    (launch : LaunchResult) : String × SMState :=
  let sess0 := (lookupSession st id).getD
    { output := "", process := none, retired := [] }
  let sess1 :=
    match sess0.process with
    | some p =>
      if p.alive then { sess0 with process := some (replaceKill p).fst }
      else sess0
    | none => sess0
  let sess2 := { sess1 with output := "" }
  match launch with
  | LaunchResult.err e => (errExecMsg e, setSession st id sess2)
  | LaunchResult.ok pnew =>
    let drained := (initialDrain pnew).fst
    let p' := (initialDrain pnew).snd
    let sess3 := { sess2 with
      output := drained
      process := some p'
      retired := sess2.retired ++ sess2.process.toList }
    (startedMsg id (drained.take 1000), setSession st id sess3)

/-- The `shell_view` tool (`src/manusmcp/tools.py` lines 227-246):
drains newly available output of a live process into the buffer and
returns the full accumulated buffer; unknown id gives an explicit
not-found result. -/
def shell_view (st : SMState) (id : String) : String × SMState :=
  match lookupSession st id with
  | none => (notFoundMsg id, st)
  | some sess =>
    match sess.process with
    | some p =>
      if p.alive then
        let sess' := { sess with
          output := sess.output ++ p.availOutput
          process := some { p with availOutput := "" } }
        (sess'.output, setSession st id sess')
      else (sess.output, st)
    | none => (sess.output, st)

/-- Completion path shared by both branches of `shell_wait` once
`process.wait` has returned: the process is exited, the remaining
output is read to end of stream into the buffer, and the return code is
reported. -/
def completeWait (st : SMState) (id : String) (sess : ShellSession)
    (p : Proc) : String × SMState :=
  let p' := { p with
    alive := false, runtime := 0, availOutput := "", futureOutput := "" }
  let sess' := { sess with
    output := sess.output ++ p.availOutput ++ p.futureOutput
    process := some p' }
  (completedMsg id p.exitCode, setSession st id sess')

/-- The `shell_wait` tool (`src/manusmcp/tools.py` lines 248-283).
With a timeout, `subprocess.TimeoutExpired` is modelled by the process
runtime exceeding the timeout, in which case the still-running result is
returned and the state is untouched; otherwise (and always without a
timeout) the process exits and `completeWait` applies. -/
def shell_wait (st : SMState) (id : String) (seconds : Option Nat) :
    String × SMState :=
  match lookupSession st id with
  | none => (notFoundMsg id, st)
  | some sess =>
    match sess.process with
    | none => (noProcMsg id, st)
    | some p =>
      if p.alive then
        match seconds with
        | some t =>
          if t < p.runtime then (stillRunningMsg id t, st)
          else completeWait st id sess p
        | none => completeWait st id sess p
      else (alreadyCompletedMsg id p.exitCode, st)

/-- The `shell_write_to_process` tool (`src/manusmcp/tools.py` lines
285-322): requires a live process, appends a newline when `press_enter`,
writes to stdin, and after the settle delay drains newly available
output into the buffer. -/
def shell_write_to_process (st : SMState) (id input : String)
    (press_enter : Bool) : String × SMState :=
  match lookupSession st id with
  | none => (notFoundMsg id, st)
  | some sess =>
    match sess.process with
    | none => (noProcMsg id, st)
    | some p =>
      if p.alive then
        let inputW := if press_enter then input ++ "\n" else input
        let p' := { p with stdin := p.stdin ++ inputW, availOutput := "" }
        let sess' := { sess with
          output := sess.output ++ p.availOutput
          process := some p' }
        (inputWrittenMsg id, setSession st id sess')
      else (alreadyCompletedMsg id p.exitCode, st)

/-- The `shell_kill_process` tool (`src/manusmcp/tools.py` lines
324-353): reports not-found / no-process / already-completed conditions
as result values, and applies `gracefulKill` to a live process. -/
def shell_kill_process (st : SMState) (id : String) : String × SMState :=
  match lookupSession st id with
  | none => (notFoundMsg id, st)
  | some sess =>
    match sess.process with
    | none => (noProcMsg id, st)
    | some p =>
      if p.alive then
        let sess' := { sess with process := some (gracefulKill p).fst }
        (terminatedMsg id, setSession st id sess')
      else (alreadyCompletedMsg id p.exitCode, st)

/-- One call against the session manager, with any environment
nondeterminism (the launch outcome) resolved in the operation itself. -/
inductive SMOp
  | exec (id exec_dir command : String) (launch : LaunchResult)
  | view (id : String)
  | wait (id : String) (seconds : Option Nat)
  | write (id input : String) (press_enter : Bool)
  | kill (id : String)

/-- Run one operation, keeping only the resulting state. -/
def runOp (st : SMState) (op : SMOp) : SMState :=
  match op with
  | SMOp.exec id d c launch => (shell_exec st id d c launch).snd
  | SMOp.view id => (shell_view st id).snd
  | SMOp.wait id s => (shell_wait st id s).snd
  | SMOp.write id i e => (shell_write_to_process st id i e).snd
  | SMOp.kill id => (shell_kill_process st id).snd

/-- Run a sequence of operations from a state. -/
def runOps (st : SMState) (ops : List SMOp) : SMState :=
  match ops with
  | [] => st
  | op :: rest => runOps (runOp st op) rest

/-- Number of live process handles associated with a session id: the
current `process` field plus every handle the id's `shell_exec` calls
have dropped. -/
def liveHandles (st : SMState) (id : String) : Nat :=
  match lookupSession st id with
  | none => 0
  | some sess =>
    ((sess.retired ++ sess.process.toList).filter (fun p => p.alive)).length

/-! ## Filesystem worker routing (`src/workers/fs.py`) and file tools -/

/-- Where `call_file_tool_node` sends control after processing one tool
message: back to the worker's `agent` node, to the staged
`write_file_content` node, or to the parent graph's `supervisor`. -/
inductive FsGoto
  | agent
  | writeFileContent
  | supervisorParent
deriving Repr, DecidableEq

/-- The names in `fs_toolkit` (`fs_tools` in `src/tools.py`). -/
def fs_tool_names : List String :=
  ["file_read", "file_read_image", "file_write", "file_str_replace",
   "file_find_in_content", "file_find_by_name"]

/-- The per-tool-message routing of `call_file_tool_node`
(`src/workers/fs.py` lines 61-95), keyed on the tool message's `name`
and `content`: read-family results short-circuit to the parent
supervisor; a `file_write` result whose content is the empty string goes
to the staged `write_file_content` node; other toolkit results continue
with the agent; anything else returns to the parent supervisor. -/
def routeToolMessage (name content : String) : FsGoto :=
  if name = "file_read" ∨ name = "file_read_image" then
    FsGoto.supervisorParent
  else if name = "file_write" ∧ content = "" then
    FsGoto.writeFileContent
  else if name ∈ fs_tool_names then
    FsGoto.agent
  else
    FsGoto.supervisorParent

/-- The `write_file_content` node (`src/workers/fs.py` lines 107-139)
always forwards the staged write agent's last message to the parent
graph's supervisor. -/
def write_file_content_goto : FsGoto := FsGoto.supervisorParent

/-- Arguments of the `file_write` tool (`FileWriteParams` in
`src/manusmcp/tools.py`). -/
structure FileWriteParams where
  file : String
  content : String
  append : Bool := false
  leading_newline : Bool := false
  trailing_newline : Bool := true
deriving Repr, DecidableEq

/-- The content actually written by `file_write`: optional leading
newline, and a trailing newline added unless one is already present. -/
def processedContent (p : FileWriteParams) : String :=
  let c := if p.leading_newline then "\n" ++ p.content else p.content
  if p.trailing_newline ∧ ¬ c.endsWith "\n" then c ++ "\n" else c

/-- A file system as an association list from path to content. -/
def FileSys := List (String × String)

/-- Read a path from the file-system model. -/
def getFile (fs : FileSys) (path : String) : Option String :=
  match fs with
  | [] => none
  | (k, v) :: rest => if k = path then some v else getFile rest path

/-- Store a path in the file-system model. -/
def setFile (fs : FileSys) (path content : String) : FileSys :=
  match fs with
  | [] => [(path, content)]
  | (k, v) :: rest =>
    if k = path then (path, content) :: rest else (k, v) :: setFile rest path content

/-- Success message of `file_write`. -/
def fileWrittenMsg (path : String) : String :=
  s!"File written successfully: {path}"

/-- Error message of `file_write` when an exception was caught. -/
def errWriteMsg (e : String) : String :=
  s!"Error writing file: {e}"

/-- The `file_write` tool (`src/manusmcp/tools.py` lines 431-476) on the
file-system model; `ioError` carries the exception message when the
underlying write raised, `none` on the normal path.  The tool returns
the success message naming the path, or the captured error message —
never the empty string. -/
def file_write (fs : FileSys) (p : FileWriteParams)
    (ioError : Option String) : FileSys × String :=
  match ioError with
  | some e => (fs, errWriteMsg e)
  | none =>
    let newContent :=
      if p.append then ((getFile fs p.file).getD "") ++ processedContent p
      else processedContent p
    (setFile fs p.file newContent, fileWrittenMsg p.file)

/-! ## Python string replace/count (`file_str_replace`)

`content.replace(old, new)` and `content.count(old)` from
`src/manusmcp/tools.py` lines 497-500, embedded on `List Char`:
a left-to-right scan replacing (counting) non-overlapping occurrences,
with CPython's convention for the empty pattern (`new` is inserted
before every character and at the end; the count is `len + 1`). -/

/-- Scan for `replace` with a non-empty pattern `o :: old'`. -/
def pyReplaceAux (o : Char) (old' : List Char) (new : List Char) :
    List Char → List Char
  | [] => []
  | c :: t =>
    if (o :: old').isPrefixOf (c :: t) then
      new ++ pyReplaceAux o old' new (t.drop old'.length)
    else
      c :: pyReplaceAux o old' new t
termination_by s => s.length
decreasing_by
  · simp only [List.length_drop, List.length_cons]
    omega
  · simp only [List.length_cons]
    omega

/-- Python's `str.replace` on character lists. -/
def pyReplace (s old new : List Char) : List Char :=
  match old with
  | [] => new ++ s.flatMap (fun c => c :: new)
  | o :: old' => pyReplaceAux o old' new s

/-- Scan for `count` with a non-empty pattern `o :: old'`. -/
def pyCountAux (o : Char) (old' : List Char) : List Char → Nat
  | [] => 0
  | c :: t =>
    if (o :: old').isPrefixOf (c :: t) then
      1 + pyCountAux o old' (t.drop old'.length)
    else
      pyCountAux o old' t
termination_by s => s.length
decreasing_by
  · simp only [List.length_drop, List.length_cons]
    omega
  · simp only [List.length_cons]
    omega

/-- Python's `str.count` (non-overlapping occurrences) on character
lists. -/
def pyCount (s old : List Char) : Nat :=
  match old with
  | [] => s.length + 1
  | o :: old' => pyCountAux o old' s

/-- Reported message when `file_str_replace` changed the file. -/
def replacedMsg (count : Nat) (path : String) : String :=
  s!"Replaced {count} occurrence(s) in {path}"

/-- Reported message when `file_str_replace` left the file unchanged. -/
def noReplMsg (path : String) : String :=
  s!"No replacements made. String not found in {path}"

/-- The `file_str_replace` tool (`src/manusmcp/tools.py` lines 478-521)
on the file's content: computes `content.replace(old, new)` and
`content.count(old)`, writes back only when the content changed, and
reports either the replacement count or that nothing was replaced.
Returns (resulting file content, whether a write happened, message). -/
def file_str_replace (path : String) (content old_str new_str : List Char) :
    List Char × Bool × String :=
  let newContent := pyReplace content old_str new_str
  let count := pyCount content old_str
  if content ≠ newContent then
    (newContent, true, replacedMsg count path)
  else
    (content, false, noReplMsg path)

/-! ## Session manager lemmas -/
theorem lookupSession_setSession_self (st : SMState) (id : String)
    (s : ShellSession) : lookupSession (setSession st id s) id = some s := by
  induction st with
  | nil => simp [setSession, lookupSession]
  | cons kv rest ih =>
    obtain ⟨k, v⟩ := kv
    by_cases hk : k = id
    · simp [setSession, lookupSession, hk]
    · simp [setSession, lookupSession, hk, ih]

theorem lookupSession_setSession_ne (st : SMState) (id j : String)
    (s : ShellSession) (h : j ≠ id) :
    lookupSession (setSession st id s) j = lookupSession st j := by
  have hij : ¬ id = j := fun e => h e.symm
  induction st with
  | nil => simp [setSession, lookupSession, hij]
  | cons kv rest ih =>
    obtain ⟨k, v⟩ := kv
    by_cases hk : k = id
    · subst hk
      simp [setSession, lookupSession, hij]
    · simp [setSession, lookupSession, hk, ih]

/-- The reachable-state invariant behind the at-most-one-live-process
property: every handle that `shell_exec` has dropped for a session is a
dead process. -/
def RetiredDead (st : SMState) : Prop :=
  ∀ id sess, lookupSession st id = some sess →
    ∀ p ∈ sess.retired, p.alive = false

theorem retiredDead_set {st : SMState} {id : String} {sess : ShellSession}
    (h : RetiredDead st) (hd : ∀ p ∈ sess.retired, p.alive = false) :
    RetiredDead (setSession st id sess) := by
  intro j s hj p hp
  by_cases hji : j = id
  · subst hji
    rw [lookupSession_setSession_self] at hj
    cases hj
    exact hd p hp
  · rw [lookupSession_setSession_ne st id j sess hji] at hj
    exact h j s hj p hp

theorem replaceKill_dead (p : Proc) : ((replaceKill p).fst).alive = false := rfl

theorem gracefulKill_dead (p : Proc) : ((gracefulKill p).fst).alive = false := rfl

theorem retiredDead_shell_exec {st : SMState} (h : RetiredDead st)
    (id d c : String) (launch : LaunchResult) :
    RetiredDead (shell_exec st id d c launch).snd := by
  unfold shell_exec
  cases hl : lookupSession st id with
  | none =>
    simp only [hl, Option.getD_none]
    cases launch with
    | err e => exact retiredDead_set h (by intro p hp; simp at hp)
    | ok pnew =>
      refine retiredDead_set h ?_
      intro p hp
      simp [Option.toList] at hp
  | some sess =>
    simp only [hl, Option.getD_some]
    cases hp : sess.process with
    | none =>
      simp only [hp]
      cases launch with
      | err e => exact retiredDead_set h (fun p hq => h id sess hl p hq)
      | ok pnew =>
        refine retiredDead_set h ?_
        intro p hq
        simp only [List.mem_append] at hq
        rcases hq with hq | hq
        · exact h id sess hl p hq
        · simp [Option.toList] at hq
    | some pr =>
      simp only [hp]
      cases hal : pr.alive with
      | true =>
        cases launch with
        | err e => exact retiredDead_set h (fun p hq => h id sess hl p hq)
        | ok pnew =>
          refine retiredDead_set h ?_
          intro p hq
          simp at hq
          rcases hq with hq | hq
          · exact h id sess hl p hq
          · rw [hq]
            exact replaceKill_dead pr
      | false =>
        cases launch with
        | err e => exact retiredDead_set h (fun p hq => h id sess hl p hq)
        | ok pnew =>
          refine retiredDead_set h ?_
          intro p hq
          simp at hq
          rcases hq with hq | hq
          · exact h id sess hl p hq
          · rw [hp] at hq
            injection hq with hq2
            rw [← hq2]
            exact hal

theorem retiredDead_shell_view {st : SMState} (h : RetiredDead st)
    (id : String) : RetiredDead (shell_view st id).snd := by
  unfold shell_view
  cases hl : lookupSession st id with
  | none => exact h
  | some sess =>
    simp only [hl]
    cases hp : sess.process with
    | none => simp only [hp]; exact h
    | some pr =>
      simp only [hp]
      cases hal : pr.alive with
      | true => exact retiredDead_set h (fun p hq => h id sess hl p hq)
      | false => exact h

theorem retiredDead_shell_wait {st : SMState} (h : RetiredDead st)
    (id : String) (seconds : Option Nat) :
    RetiredDead (shell_wait st id seconds).snd := by
  unfold shell_wait
  cases hl : lookupSession st id with
  | none => exact h
  | some sess =>
    simp only [hl]
    cases hp : sess.process with
    | none => simp only [hp]; exact h
    | some pr =>
      simp only [hp]
      cases hal : pr.alive with
      | false => exact h
      | true =>
        cases seconds with
        | none =>
          unfold completeWait
          exact retiredDead_set h (fun p hq => h id sess hl p hq)
        | some t =>
          by_cases ht : t < pr.runtime
          · simp only [ht, if_true]
            exact h
          · simp only [ht, if_false]
            unfold completeWait
            exact retiredDead_set h (fun p hq => h id sess hl p hq)

theorem retiredDead_shell_write {st : SMState} (h : RetiredDead st)
    (id input : String) (enter : Bool) :
    RetiredDead (shell_write_to_process st id input enter).snd := by
  unfold shell_write_to_process
  cases hl : lookupSession st id with
  | none => exact h
  | some sess =>
    simp only [hl]
    cases hp : sess.process with
    | none => simp only [hp]; exact h
    | some pr =>
      simp only [hp]
      cases hal : pr.alive with
      | false => exact h
      | true => exact retiredDead_set h (fun p hq => h id sess hl p hq)

theorem retiredDead_shell_kill {st : SMState} (h : RetiredDead st)
    (id : String) : RetiredDead (shell_kill_process st id).snd := by
  unfold shell_kill_process
  cases hl : lookupSession st id with
  | none => exact h
  | some sess =>
    simp only [hl]
    cases hp : sess.process with
    | none => simp only [hp]; exact h
    | some pr =>
      simp only [hp]
      cases hal : pr.alive with
      | false => exact h
      | true => exact retiredDead_set h (fun p hq => h id sess hl p hq)

theorem retiredDead_runOp {st : SMState} (h : RetiredDead st) (op : SMOp) :
    RetiredDead (runOp st op) := by
  cases op with
  | exec id d c launch => exact retiredDead_shell_exec h id d c launch
  | view id => exact retiredDead_shell_view h id
  | wait id secs => exact retiredDead_shell_wait h id secs
  | write id input enter => exact retiredDead_shell_write h id input enter
  | kill id => exact retiredDead_shell_kill h id

theorem retiredDead_runOps {st : SMState} (h : RetiredDead st)
    (ops : List SMOp) : RetiredDead (runOps st ops) := by
  induction ops generalizing st with
  | nil => exact h
  | cons op rest ih => exact ih (retiredDead_runOp h op)

theorem liveHandles_le_one_of_retiredDead {st : SMState}
    (h : RetiredDead st) (id : String) : liveHandles st id ≤ 1 := by
  unfold liveHandles
  cases hl : lookupSession st id with
  | none => exact Nat.zero_le 1
  | some sess =>
    have hdead : sess.retired.filter (fun p => p.alive) = [] := by
      rw [List.filter_eq_nil_iff]
      intro p hp
      simp [h id sess hl p hp]
    simp only [List.filter_append, hdead, List.nil_append]
    calc ((sess.process.toList).filter (fun p => p.alive)).length
        ≤ (sess.process.toList).length := List.length_filter_le _ _
      _ ≤ 1 := by cases sess.process <;> simp [Option.toList]

/-! ## Lemmas about the Python replace/count embedding -/

theorem flatMap_cons_length (new : List Char) (s : List Char) :
    (s.flatMap (fun c => c :: new)).length = s.length * (new.length + 1) := by
  induction s with
  | nil => simp
  | cons c t ih =>
    simp only [List.flatMap_cons, List.length_append, List.length_cons, ih]
    ring

theorem flatMap_singleton_id (s : List Char) :
    s.flatMap (fun c => c :: ([] : List Char)) = s := by
  induction s with
  | nil => rfl
  | cons c t ih => simp only [List.flatMap_cons, ih]; rfl

theorem isPrefixOf_cons_decomp {o c : Char} {old' t : List Char}
    (h : (o :: old').isPrefixOf (c :: t)) :
    c = o ∧ t = old' ++ t.drop old'.length := by
  have hp : (o :: old') <+: (c :: t) := List.isPrefixOf_iff_prefix.mp h
  obtain ⟨r, hr⟩ := hp
  have hr' : o :: (old' ++ r) = c :: t := by simpa using hr
  injection hr' with h1 h2
  refine ⟨h1.symm, ?_⟩
  rw [← h2, List.drop_left]

theorem pyReplaceAux_count_zero (o : Char) (old' new : List Char) :
    ∀ s, pyCountAux o old' s = 0 → pyReplaceAux o old' new s = s := by
  intro s
  induction s with
  | nil => intro _; simp [pyReplaceAux]
  | cons c t ih =>
    intro hc
    simp only [pyCountAux] at hc
    simp only [pyReplaceAux]
    by_cases hpre : (o :: old').isPrefixOf (c :: t)
    · rw [if_pos hpre] at hc
      omega
    · rw [if_neg hpre] at hc
      rw [if_neg hpre, ih hc]

theorem pyReplace_count_zero (s old new : List Char)
    (h : pyCount s old = 0) : pyReplace s old new = s := by
  cases old with
  | nil => simp [pyCount] at h
  | cons o old' => exact pyReplaceAux_count_zero o old' new s h

theorem pyReplaceAux_self (o : Char) (old' : List Char) :
    ∀ n s, s.length ≤ n → pyReplaceAux o old' (o :: old') s = s := by
  intro n
  induction n with
  | zero =>
    intro s hs
    have : s = [] := List.length_eq_zero.mp (Nat.le_zero.mp hs)
    subst this
    simp [pyReplaceAux]
  | succ n ih =>
    intro s hs
    match s with
    | [] => simp [pyReplaceAux]
    | c :: t =>
      simp only [pyReplaceAux]
      by_cases hpre : (o :: old').isPrefixOf (c :: t)
      · rw [if_pos hpre]
        obtain ⟨hc, ht⟩ := isPrefixOf_cons_decomp hpre
        have hlt : (t.drop old'.length).length ≤ n := by
          have := congrArg List.length ht
          simp only [List.length_append] at this
          simp only [List.length_cons] at hs
          omega
        rw [ih (t.drop old'.length) hlt]
        rw [hc]
        conv_rhs => rw [ht]
        rfl
      · rw [if_neg hpre]
        have hlt : t.length ≤ n := by
          simp only [List.length_cons] at hs
          omega
        rw [ih t hlt]

theorem pyReplace_self (s old : List Char) : pyReplace s old old = s := by
  cases old with
  | nil => simp [pyReplace, flatMap_singleton_id]
  | cons o old' => exact pyReplaceAux_self o old' s.length s (Nat.le_refl _)

theorem pyReplaceAux_length (o : Char) (old' new : List Char) :
    ∀ n s, s.length ≤ n →
      (pyReplaceAux o old' new s).length
          + pyCountAux o old' s * (old'.length + 1)
        = s.length + pyCountAux o old' s * new.length := by
  intro n
  induction n with
  | zero =>
    intro s hs
    have : s = [] := List.length_eq_zero.mp (Nat.le_zero.mp hs)
    subst this
    simp [pyReplaceAux, pyCountAux]
  | succ n ih =>
    intro s hs
    match s with
    | [] => simp [pyReplaceAux, pyCountAux]
    | c :: t =>
      simp only [pyReplaceAux, pyCountAux]
      by_cases hpre : (o :: old').isPrefixOf (c :: t)
      · rw [if_pos hpre, if_pos hpre]
        obtain ⟨hc, ht⟩ := isPrefixOf_cons_decomp hpre
        have hlen : t.length = old'.length + (t.drop old'.length).length := by
          have := congrArg List.length ht
          simpa [List.length_append] using this
        have hlt : (t.drop old'.length).length ≤ n := by
          simp only [List.length_cons] at hs
          omega
        have hih := ih (t.drop old'.length) hlt
        simp only [List.length_append, List.length_cons]
        rw [Nat.add_mul, Nat.one_mul, Nat.add_mul, Nat.one_mul]
        omega
      · rw [if_neg hpre, if_neg hpre]
        have hlt : t.length ≤ n := by
          simp only [List.length_cons] at hs
          omega
        have hih := ih t hlt
        simp only [List.length_cons]
        omega

theorem pyReplaceAux_ne (o : Char) (old' new : List Char)
    (hlen : old'.length + 1 = new.length) (hne : new ≠ o :: old') :
    ∀ s, pyCountAux o old' s ≠ 0 → pyReplaceAux o old' new s ≠ s := by
  intro s
  induction s with
  | nil => intro hc; simp [pyCountAux] at hc
  | cons c t ih =>
    intro hc heq
    simp only [pyReplaceAux] at heq
    simp only [pyCountAux] at hc
    by_cases hpre : (o :: old').isPrefixOf (c :: t)
    · rw [if_pos hpre] at heq
      obtain ⟨hc2, ht⟩ := isPrefixOf_cons_decomp hpre
      have hshape : c :: t = (o :: old') ++ t.drop old'.length := by
        rw [hc2]
        conv_lhs => rw [ht]
        rfl
      rw [hshape] at heq
      have hl : new.length = (o :: old').length := by
        simp only [List.length_cons]
        omega
      have := List.append_inj heq hl
      exact hne this.left
    · rw [if_neg hpre] at heq
      rw [if_neg hpre] at hc
      injection heq with h1 h2
      exact ih hc h2

theorem pyReplace_ne (s old new : List Char)
    (hc : pyCount s old ≠ 0) (hne : new ≠ old) : pyReplace s old new ≠ s := by
  cases old with
  | nil =>
    intro heq
    have hlen := congrArg List.length heq
    simp only [pyReplace, List.length_append, flatMap_cons_length] at hlen
    have hnew : new.length ≠ 0 := by
      intro h0
      exact hne (List.length_eq_zero.mp h0)
    -- new.length + s.length * (new.length + 1) = s.length forces new.length = 0
    have hexp : s.length * (new.length + 1) = s.length * new.length + s.length := by
      ring
    rw [hexp] at hlen
    omega
  | cons o old' =>
    simp only [pyCount] at hc
    intro heq
    simp only [pyReplace] at heq
    have hlen : (pyReplaceAux o old' new s).length = s.length :=
      congrArg List.length heq
    have hlen2 := pyReplaceAux_length o old' new s.length s (Nat.le_refl _)
    have hAB : pyCountAux o old' s * (old'.length + 1)
        = pyCountAux o old' s * new.length := by linarith
    have hle : old'.length + 1 = new.length :=
      Nat.eq_of_mul_eq_mul_left (Nat.pos_of_ne_zero hc) hAB
    exact pyReplaceAux_ne o old' new hle hne s hc heq

/-! ## Claim theorems -/

/-- Initial C1 state: a one-step plan, before the worker call. -/
def c1Init : State :=
  { input := "g"
    plan := [{ description := "s1", substeps := ["a"] }]
    pastSteps := []
    response := ""
    sources := []
    messages := []
    next := "END"
    instruction := "" }

/-- Initial two-step-plan state for the C1 round-trip scenario. -/
def c1Init2 : State :=
  { input := "g"
    plan := [{ description := "a", substeps := [] }, { description := "b", substeps := [] }]
    pastSteps := []
    response := ""
    sources := []
    messages := []
    next := "END"
    instruction := "" }

/-- Claim C1, evaluated at its failing input.  The supervisor's FINISH
branch does append the `(description, mostRecentMessageContent)` pair to
`pastSteps`, but because the `plan` channel reducer declared in
`src/state.py` is concatenation, merging the `state["plan"][1:]` update
yields `plan ++ tail plan`: the head step is never popped, a one-step
plan is still non-empty after FINISH, and a two-step run records the
first description twice instead of the plan's original order.  This
contradicts the claim that the run produces N entries in original order
with the plan ending empty. -/
theorem finish_update_code_bug :
    finishStep c1Init "result"
      = some { input := "g"
               plan := [{ description := "s1", substeps := ["a"] }]
               pastSteps := [("s1", "result")]
               response := ""
               sources := []
               messages := ["result"]
               next := "END"
               instruction := "" }
    ∧ (finishRun c1Init2 ["m1", "m2"]).map State.pastSteps
        = some [("a", "m1"), ("a", "m2")]
    ∧ (finishRun c1Init2 ["m1", "m2"]).map State.plan ≠ some [] := by
  refine ⟨by decide, by decide, by decide⟩

/-- Claim C2: after a replan step the controller reaches `END` exactly
when the `response` field is present and non-empty, regardless of the
plan's contents; when `response` is absent or empty, control returns to
the supervisor; and `END` is absorbing, so the supervisor loop is not
invoked again. -/
theorem replanner_response_priority (s : CtrlState) :
    ((∃ r, s.response = some r ∧ r ≠ "") →
        controllerStep CNode.replanner s = CNode.doneNode)
    ∧ ((s.response = none ∨ s.response = some "") →
        controllerStep CNode.replanner s = CNode.supervisorNode)
    ∧ (∀ u : CtrlState, controllerStep CNode.doneNode u = CNode.doneNode) := by
  refine ⟨?_, ?_, fun u => rfl⟩
  · rintro ⟨r, hr, hne⟩
    simp [controllerStep, should_end, hr, hne]
  · rintro (h | h) <;> simp [controllerStep, should_end, h]

/-- Witness for C2: a set, non-empty response sends the controller to
`END` even though the plan is non-empty. -/
theorem replanner_response_priority_witness :
    controllerStep CNode.replanner
      { plan := [{ description := "s", substeps := [] }],
        response := some "final answer" } = CNode.doneNode :=
  (replanner_response_priority
    { plan := [{ description := "s", substeps := [] }],
      response := some "final answer" }).1 ⟨"final answer", rfl, by decide⟩

/-- Claim C3: over every sequence of session-manager calls from the
empty table, each session id has at most one live process handle at any
time; the shutdown `shell_exec` applies to an existing live process
always leaves it dead before the new launch; and on a failed launch the
session's output buffer has been reset to the empty string. -/
theorem session_single_live_process :
    (∀ ops id, liveHandles (runOps ([] : SMState) ops) id ≤ 1)
    ∧ (∀ p : Proc, ((replaceKill p).fst).alive = false)
    ∧ (∀ st id d c e, ∃ sess,
        lookupSession (shell_exec st id d c (LaunchResult.err e)).snd id
          = some sess ∧ sess.output = "") := by
  refine ⟨?_, replaceKill_dead, ?_⟩
  · intro ops id
    have hinit : RetiredDead ([] : SMState) := by
      intro j sess hj
      simp [lookupSession] at hj
    exact liveHandles_le_one_of_retiredDead (retiredDead_runOps hinit ops) id
  · intro st id d c e
    unfold shell_exec
    cases hl : lookupSession st id with
    | none =>
      exact ⟨_, lookupSession_setSession_self st id _, rfl⟩
    | some sess =>
      cases hp : sess.process with
      | none => exact ⟨_, lookupSession_setSession_self st id _, rfl⟩
      | some pr =>
        cases hal : pr.alive with
        | true => exact ⟨_, lookupSession_setSession_self st id _, rfl⟩
        | false => exact ⟨_, lookupSession_setSession_self st id _, rfl⟩

/-- Claim C4, evaluated at its failing input.  `call_file_tool_node`
tests the tool message's result content against the empty string, but
`file_write` always returns a non-empty message (a success message
naming the path, or a captured error message), so a write-file call
whose `content` argument is empty is routed to `agent` like any other
toolkit result: the staged `write_file_content` step is unreachable for
`file_write` results, contrary to the claim that an empty content
argument triggers it. -/
theorem staged_write_unreachable :
    routeToolMessage "file_write"
        ((file_write [] { file := "f.txt", content := "" } none).snd)
      = FsGoto.agent
    ∧ (∀ fs p ioErr, (file_write fs p ioErr).snd ≠ "")
    ∧ (∀ fs p ioErr,
        routeToolMessage "file_write" ((file_write fs p ioErr).snd)
          = FsGoto.agent)
    ∧ write_file_content_goto = FsGoto.supervisorParent := by
  have hne : ∀ fs p ioErr, (file_write fs p ioErr).snd ≠ "" := by
    intro fs p ioErr
    cases ioErr with
    | some e =>
      show errWriteMsg e ≠ ""
      unfold errWriteMsg
      intro h
      have hd := congrArg String.data h
      rw [String.data_append] at hd
      simp at hd
    | none =>
      show fileWrittenMsg p.file ≠ ""
      unfold fileWrittenMsg
      intro h
      have hd := congrArg String.data h
      rw [String.data_append] at hd
      simp at hd
  have hroute : ∀ fs p ioErr,
      routeToolMessage "file_write" ((file_write fs p ioErr).snd)
        = FsGoto.agent := by
    intro fs p ioErr
    unfold routeToolMessage
    rw [if_neg (by decide), if_neg (by simp [hne fs p ioErr]),
      if_pos (by simp [fs_tool_names])]
  exact ⟨hroute [] { file := "f.txt", content := "" } none, hne, hroute, rfl⟩

/-- Claim C5: a timed wait on a live process whose runtime exceeds the
timeout returns the still-running message and leaves the whole session
table (and so the process) untouched; a subsequent untimed wait from
that same state blocks until exit, drains the remaining output fully
into the session buffer, and reports the process's true exit code. -/
theorem wait_timeout_then_completion (st : SMState) (id : String)
    (sess : ShellSession) (p : Proc) (t : Nat)
    (hs : lookupSession st id = some sess) (hp : sess.process = some p)
    (halive : p.alive = true) (ht : t < p.runtime) :
    shell_wait st id (some t) = (stillRunningMsg id t, st)
    ∧ shell_wait st id none
        = (completedMsg id p.exitCode,
           setSession st id
             { sess with
               output := sess.output ++ p.availOutput ++ p.futureOutput,
               process := some { p with
                 alive := false, runtime := 0,
                 availOutput := "", futureOutput := "" } }) := by
  constructor
  · unfold shell_wait
    simp only [hs, hp, halive, if_true, ht, if_pos]
  · unfold shell_wait completeWait
    simp only [hs, hp, halive, if_true]

/-- C5 process behaviour record used by the witness. -/
def c5Proc : Proc :=
  { alive := true, exitCode := 7, availOutput := "B", futureOutput := "C",
    stdin := "", termResponsive := true, runtime := 10 }

/-- C5 session used by the witness. -/
def c5Sess : ShellSession :=
  { output := "A", process := some c5Proc, retired := [] }

/-- C5 session table used by the witness. -/
def c5St : SMState := [("s1", c5Sess)]

/-- Witness for C5 at a concrete session whose process runs for 10
seconds: a 1 second wait reports still-running and changes nothing, and
the untimed wait reports exit code 7 with the buffer fully drained. -/
theorem wait_timeout_then_completion_witness :
    shell_wait c5St "s1" (some 1) = (stillRunningMsg "s1" 1, c5St)
    ∧ shell_wait c5St "s1" none
        = (completedMsg "s1" c5Proc.exitCode,
           setSession c5St "s1"
             { c5Sess with
               output := c5Sess.output ++ c5Proc.availOutput ++ c5Proc.futureOutput,
               process := some { c5Proc with
                 alive := false, runtime := 0,
                 availOutput := "", futureOutput := "" } }) :=
  wait_timeout_then_completion c5St "s1" c5Sess c5Proc 1 rfl rfl rfl
    (by decide)

/-- Counterexample for claim C6: for a process that does not exit
within the 5 second grace period, the sequences of signals and waits
applied by `shell_exec`'s replace path and by `shell_kill_process`
differ — the kill path performs an extra unbounded wait after the
force-kill. -/
theorem terminate_policies_differ :
    (replaceKill
        { alive := true, exitCode := 0, availOutput := "", futureOutput := "",
          stdin := "", termResponsive := false, runtime := 99 }).snd
      ≠ (gracefulKill
        { alive := true, exitCode := 0, availOutput := "", futureOutput := "",
          stdin := "", termResponsive := false, runtime := 99 }).snd := by
  decide

/-- Claim C6 as amended: the two shutdown policies produce the same
resulting process state, and their action sequences are identical
whenever the process exits within the grace period; when the force-kill
is needed, `shell_kill_process` applies exactly the `shell_exec`
sequence followed by one extra unbounded reaping wait. -/
theorem terminate_policies_agree_up_to_reap (p : Proc) :
    (replaceKill p).fst = (gracefulKill p).fst
    ∧ (p.termResponsive = true → (replaceKill p).snd = (gracefulKill p).snd)
    ∧ (p.termResponsive = false →
        (gracefulKill p).snd = (replaceKill p).snd ++ [ProcAction.waitReap]) := by
  refine ⟨rfl, ?_, ?_⟩
  · intro h
    simp [replaceKill, gracefulKill, h]
  · intro h
    simp [replaceKill, gracefulKill, h]

/-- Witness for the amended C6: one grace-period-responsive process on
which the sequences agree, and one stubborn process on which the kill
path is the exec path plus the final reap. -/
theorem terminate_policies_agree_up_to_reap_witness :
    (replaceKill c5Proc).snd = (gracefulKill c5Proc).snd
    ∧ (gracefulKill { c5Proc with termResponsive := false }).snd
        = (replaceKill { c5Proc with termResponsive := false }).snd
          ++ [ProcAction.waitReap] :=
  ⟨(terminate_policies_agree_up_to_reap c5Proc).2.1 rfl,
   (terminate_policies_agree_up_to_reap
      { c5Proc with termResponsive := false }).2.2 rfl⟩

/-- Claim C7: on a session whose process has already exited, both
`shell_kill_process` and `shell_write_to_process` return the structured
already-completed report carrying the return code, leave the session
table (buffer and process state) unchanged, and killing twice gives the
same report — the operation is idempotent. -/
theorem kill_and_write_idempotent_on_exited (st : SMState) (id : String)
    (sess : ShellSession) (p : Proc) (input : String) (enter : Bool)
    (hs : lookupSession st id = some sess) (hp : sess.process = some p)
    (hdead : p.alive = false) :
    shell_kill_process st id = (alreadyCompletedMsg id p.exitCode, st)
    ∧ shell_write_to_process st id input enter
        = (alreadyCompletedMsg id p.exitCode, st)
    ∧ shell_kill_process (shell_kill_process st id).snd id
        = (alreadyCompletedMsg id p.exitCode, st) := by
  have hkill : shell_kill_process st id
      = (alreadyCompletedMsg id p.exitCode, st) := by
    unfold shell_kill_process
    simp only [hs, hp, hdead]
    rfl
  have hwrite : shell_write_to_process st id input enter
      = (alreadyCompletedMsg id p.exitCode, st) := by
    unfold shell_write_to_process
    simp only [hs, hp, hdead]
    rfl
  refine ⟨hkill, hwrite, ?_⟩
  rw [hkill]
  exact hkill

/-- C7 exited-process record used by the witness. -/
def c7Proc : Proc :=
  { alive := false, exitCode := 3, availOutput := "", futureOutput := "",
    stdin := "", termResponsive := true, runtime := 0 }

/-- C7 session table used by the witness. -/
def c7St : SMState :=
  [("s7", { output := "done", process := some c7Proc, retired := [] })]

/-- Witness for C7 on a concrete session whose process exited with
return code 3. -/
theorem kill_and_write_idempotent_on_exited_witness :
    shell_kill_process c7St "s7" = (alreadyCompletedMsg "s7" c7Proc.exitCode, c7St)
    ∧ shell_write_to_process c7St "s7" "y" true
        = (alreadyCompletedMsg "s7" c7Proc.exitCode, c7St)
    ∧ shell_kill_process (shell_kill_process c7St "s7").snd "s7"
        = (alreadyCompletedMsg "s7" c7Proc.exitCode, c7St) :=
  kill_and_write_idempotent_on_exited c7St "s7"
    { output := "done", process := some c7Proc, retired := [] }
    c7Proc "y" true rfl rfl rfl

/-- Claim C8: when launching the command fails, `shell_exec` returns
the captured-error result string built from the exception text; the
embedding is a total function, so no exception crosses the tool
boundary on any input. -/
theorem exec_launch_failure_captured (st : SMState) (id d c e : String) :
    (shell_exec st id d c (LaunchResult.err e)).fst = errExecMsg e := rfl

/-- Claim C9: calling `shell_exec` with a previously unseen session id
and a failing launch still creates the session, with an empty output
buffer and no process; afterwards `shell_view` returns the empty
accumulated buffer rather than not-found, and `shell_wait`,
`shell_write_to_process` and `shell_kill_process` all report that no
process is running rather than not-found. -/
theorem fresh_session_failed_launch (st : SMState) (id d c e : String)
    (seconds : Option Nat) (input : String) (enter : Bool)
    (h : lookupSession st id = none) :
    lookupSession (shell_exec st id d c (LaunchResult.err e)).snd id
      = some { output := "", process := none, retired := [] }
    ∧ (shell_view (shell_exec st id d c (LaunchResult.err e)).snd id).fst = ""
    ∧ (shell_wait (shell_exec st id d c (LaunchResult.err e)).snd id seconds).fst
        = noProcMsg id
    ∧ (shell_write_to_process (shell_exec st id d c (LaunchResult.err e)).snd
        id input enter).fst = noProcMsg id
    ∧ (shell_kill_process (shell_exec st id d c (LaunchResult.err e)).snd id).fst
        = noProcMsg id := by
  have hst : (shell_exec st id d c (LaunchResult.err e)).snd
      = setSession st id { output := "", process := none, retired := [] } := by
    unfold shell_exec
    rw [h]
    rfl
  have hlook : lookupSession (shell_exec st id d c (LaunchResult.err e)).snd id
      = some { output := "", process := none, retired := [] } := by
    rw [hst]
    exact lookupSession_setSession_self st id _
  refine ⟨hlook, ?_, ?_, ?_, ?_⟩
  · unfold shell_view
    simp only [hlook]
  · unfold shell_wait
    simp only [hlook]
  · unfold shell_write_to_process
    simp only [hlook]
  · unfold shell_kill_process
    simp only [hlook]

/-- Witness for C9 from the empty session table. -/
theorem fresh_session_failed_launch_witness :
    lookupSession (shell_exec [] "s9" "/bad" "ls" (LaunchResult.err "boom")).snd "s9"
      = some { output := "", process := none, retired := [] }
    ∧ (shell_view (shell_exec [] "s9" "/bad" "ls" (LaunchResult.err "boom")).snd "s9").fst = ""
    ∧ (shell_wait (shell_exec [] "s9" "/bad" "ls" (LaunchResult.err "boom")).snd "s9" (some 2)).fst
        = noProcMsg "s9"
    ∧ (shell_write_to_process (shell_exec [] "s9" "/bad" "ls" (LaunchResult.err "boom")).snd
        "s9" "y" true).fst = noProcMsg "s9"
    ∧ (shell_kill_process (shell_exec [] "s9" "/bad" "ls" (LaunchResult.err "boom")).snd "s9").fst
        = noProcMsg "s9" :=
  fresh_session_failed_launch [] "s9" "/bad" "ls" "boom" (some 2) "y" true rfl

/-- Claim C10: `file_str_replace` computes Python's non-overlapping
left-to-right replace-all; when the pattern does not occur in the
content, or the replacement equals the pattern, the content is left
unchanged, nothing is written, and the no-replacements message is
reported; otherwise the replaced content is written and the message
reports the exact non-overlapping occurrence count. -/
theorem file_str_replace_spec (path : String)
    (content old_str new_str : List Char) :
    (file_str_replace path content old_str new_str).fst
        = pyReplace content old_str new_str
    ∧ ((pyCount content old_str = 0 ∨ new_str = old_str) →
        file_str_replace path content old_str new_str
          = (content, false, noReplMsg path))
    ∧ (pyCount content old_str ≠ 0 → new_str ≠ old_str →
        file_str_replace path content old_str new_str
          = (pyReplace content old_str new_str, true,
             replacedMsg (pyCount content old_str) path)) := by
  refine ⟨?_, ?_, ?_⟩
  · unfold file_str_replace
    by_cases h : content = pyReplace content old_str new_str
    · rw [if_neg (fun hne => hne h)]
      exact h
    · rw [if_pos h]
  · intro h
    have heq : pyReplace content old_str new_str = content := by
      rcases h with h0 | hsame
      · exact pyReplace_count_zero content old_str new_str h0
      · rw [hsame]
        exact pyReplace_self content old_str
    unfold file_str_replace
    rw [if_neg (fun hne => hne heq.symm)]
  · intro h0 hne
    have hneq : pyReplace content old_str new_str ≠ content :=
      pyReplace_ne content old_str new_str h0 hne
    unfold file_str_replace
    rw [if_pos (fun he => hneq he.symm)]

/-- Witness for C10: replacing `"a"` by `"cc"` in `"aba"` rewrites the
content and reports the count of 2 occurrences. -/
theorem file_str_replace_spec_witness :
    file_str_replace "f" ['a', 'b', 'a'] ['a'] ['c', 'c']
      = (pyReplace ['a', 'b', 'a'] ['a'] ['c', 'c'], true,
         replacedMsg (pyCount ['a', 'b', 'a'] ['a']) "f") :=
  (file_str_replace_spec "f" ['a', 'b', 'a'] ['a'] ['c', 'c']).2.2
    (by simp [pyCount, pyCountAux]) (by decide)

end Manus
